import Mathlib

/-!
# Deities: a shallow embedding of the registry-watching controller

This file embeds, in Lean 4, the data model and the operations of the
`deities` Kubernetes controller: the registry protocol client's
digest-resolution entry point and auth-challenge parser
(`internal/registry/client.go`), the Kubernetes client's rollout-restart
verb (`internal/k8s/client.go`), and the reconciliation controller
(`internal/controller`).  External effects (HTTP round trips, the
Kubernetes API, the process environment) are modelled as explicit
function-valued parameters, and the Go `map` and in-place pointer
mutation are modelled as association lists and state passing.  Theorems
about the embedding settle the specification's claims.
-/

namespace Deities

/-! ## Association-list model of Go maps

`lookupA`/`insertA` model lookup and assignment on a Go `map` keyed by
strings: assignment replaces an existing binding and otherwise appends.
-/

def lookupA {α : Type} : List (String × α) → String → Option α
  | [], _ => none
  | (k, v) :: rest, key => if k = key then some v else lookupA rest key

def insertA {α : Type} : List (String × α) → String → α → List (String × α)
  | [], key, v => [(key, v)]
  | (k, w) :: rest, key, v =>
      if k = key then (k, v) :: rest else (k, w) :: insertA rest key v

/-! ## Go `strings` helpers used by the source

They are stated over `String.data` character lists so that the kernel
can evaluate them on concrete inputs. -/

/-- Go `strings.HasPrefix(s, pre)`. -/
def goHasPre (s pre : String) : Bool :=
  pre.data.isPrefixOf s.data

/-- Go `strings.HasSuffix(s, suffix)`. -/
def goHasSuffix (s suffix : String) : Bool :=
  suffix.data.isSuffixOf s.data

/-- Go `strings.Contains(s, c)` for a one-character separator. -/
def goContainsChar (s : String) (c : Char) : Bool :=
  s.data.contains c

/-- Go `strings.TrimPrefix(s, pre)`: drop `pre` from the front of `s`
when present, otherwise return `s` unchanged. -/
def trimPre (s pre : String) : String :=
  if goHasPre s pre then String.mk (s.data.drop pre.data.length) else s

/-! ## Registry package data model (`internal/registry`) -/

/-- `registry.RegistryAuth`: credentials for a private registry. -/
structure RegistryAuth where
  username : String
  password : String
deriving DecidableEq

/-- `registry.Registry`: a registry endpoint, `name` being its address
(empty means the default public hub) with optional credentials. -/
structure Registry where
  name : String
  auth : Option RegistryAuth
deriving DecidableEq

/-- `registry.Image`: an image to monitor; `registry` is a reference to
a configured registry's name. -/
structure Image where
  name : String
  registry : String
  tag : String
deriving DecidableEq

/-- `registry.Image.Key()`: `fmt.Sprintf("%s/%s:%s", Registry, Name, Tag)`. -/
def Image.key (img : Image) : String :=
  img.registry ++ "/" ++ img.name ++ ":" ++ img.tag

/-! ## Controller data model (`internal/controller`) -/

/-- `controller.Deployment`: a managed Kubernetes deployment target.
The Go field `Namespace` is rendered `nspace` (`namespace` is a Lean
keyword). -/
structure Deployment where
  name : String
  nspace : String
  container : String
  image : String
deriving DecidableEq

/-- `controller.Config`: the controller's configuration.  The check
interval is an abstract duration count. -/
structure Config where
  checkInterval : Nat
  registries : List Registry
  images : List Image
  deployments : List Deployment

/-- The registry map built in `NewController`: `registryMap[name] = &reg`
for each configured registry in order (later entries overwrite earlier
ones, as Go map assignment does). -/
def buildRegistryMap (regs : List Registry) : List (String × Registry) :=
  regs.foldl (fun m r => insertA m r.name r) []

/-- Lookup `c.registryMap[img.Registry]`. -/
def registryMapOf (cfg : Config) (name : String) : Option Registry :=
  lookupA (buildRegistryMap cfg.registries) name

/-- `Controller.buildImagePrefix` (current version, `controller.go`):
bare image name for the default public hub, otherwise
`host + "/" + name` with any `https://` then `http://` stripped. -/
def buildImagePre (img : Image) (reg : Registry) : String :=
  let dockerHubRegistry := "https://registry-1.docker.io"
  let imagePre := img.name
  if reg.name ≠ "" ∧ reg.name ≠ dockerHubRegistry then
    let registryHost := trimPre reg.name "https://"
    let registryHost := trimPre registryHost "http://"
    registryHost ++ "/" ++ img.name
  else
    imagePre

/-! ## Registry protocol client (`internal/registry/client.go`)

External effects are explicit parameters: `expandEnv` is the process
environment's `os.ExpandEnv` at the moment of the call, and `fetch` is
the HTTP manifest round trip `fetchManifest(manifestURL, imagePath,
auth)`.  The Go code mutates `reg.Auth` through a pointer that aliases
the controller's stored configuration, so `GetImageDigest` is embedded
as a state transformer and also returns the stored registry's state
after the call. -/

/-- The registry package's default public hub endpoint constant
(`dockerHubRegistry`), as in the controller's `buildImagePrefix`. -/
def dockerHubRegistryAddr : String := "https://registry-1.docker.io"

/-- `Client.normalizeRegistry`: empty endpoint means the default hub. -/
def normalizeRegistry (registry : String) : String :=
  if registry = "" then dockerHubRegistryAddr else registry

/-- `Client.normalizeImagePath`: unqualified official images on the
default hub get the `library/` path. -/
def normalizeImagePath (registry image : String) : String :=
  if registry = dockerHubRegistryAddr ∧ ¬ goContainsChar image '/' then
    "library/" ++ image
  else
    image

/-- `Client.GetImageDigest`: resolves the digest through `fetch`, after
expanding environment placeholders in the stored credentials in place.
The returned `Registry` is the post-call state of the stored
configuration (`reg.Auth.Username = os.ExpandEnv(reg.Auth.Username)`
writes through the shared pointer). -/
def GetImageDigest (expandEnv : String → String)
    (fetch : String → String → Option RegistryAuth → Except String String)
    (img : Image) (reg : Registry) : Except String String × Registry :=
  let registryAddr := normalizeRegistry reg.name
  let imagePath := normalizeImagePath registryAddr img.name
  let reg :=
    match reg.auth with
    | none => reg
    | some auth =>
        { reg with
          auth := some { username := expandEnv auth.username
                         password := expandEnv auth.password } }
  let manifestURL := registryAddr ++ "/v2/" ++ imagePath ++ "/manifests/" ++ img.tag
  match fetch manifestURL imagePath reg.auth with
  | Except.error e =>
      (Except.error ("failed to fetch manifest for " ++ img.name ++ ":" ++ img.tag ++ ": " ++ e),
       reg)
  | Except.ok digest => (Except.ok digest, reg)

/-! ### Auth-challenge parsing (`Client.parseAuthChallenge`)

The Go code collects every match of the regular expression
`(\w+)="([^"]+)"` over the header (`FindAllStringSubmatch`) and folds
the key/value pairs into a challenge record, later occurrences of a key
overwriting earlier ones.  `tryMatchKV` matches the expression at the
head of a character list (the greedy `\w+` and `[^"]+` need no
backtracking, since `=` is not a word character and `"` is excluded);
`findKVsAux` scans left to right, resuming after each match, with a
fuel argument for structural recursion.  Fuel equal to the input length
is always enough — each step consumes at least one character — which
`findKVsAux_fuel` below proves. -/

/-- Go regexp `\w`: ASCII letters, digits and underscore. -/
def isWordChar (c : Char) : Bool :=
  c.isAlphanum || c = '_'

/-- Match `(\w+)="([^"]+)"` at the head of `cs`, returning the key, the
value and the rest of the input after the closing quote. -/
def tryMatchKV (cs : List Char) : Option (String × String × List Char) :=
  let key := cs.takeWhile isWordChar
  if key.isEmpty then none
  else
    match cs.dropWhile isWordChar with
    | '=' :: '"' :: afterQuote =>
        let val := afterQuote.takeWhile (fun c => c != '"')
        if val.isEmpty then none
        else
          match afterQuote.dropWhile (fun c => c != '"') with
          | '"' :: rest => some (String.mk key, String.mk val, rest)
          | _ => none
    | _ => none

/-- The left-to-right scan for matches, on fuel. -/
def findKVsAux : Nat → List Char → List (String × String)
  | 0, _ => []
  | _ + 1, [] => []
  | fuel + 1, c :: rest =>
      match tryMatchKV (c :: rest) with
      | some (k, v, rem) => (k, v) :: findKVsAux fuel rem
      | none => findKVsAux fuel rest

/-- All matches of `(\w+)="([^"]+)"` over the input, left to right,
resuming after each match (Go `FindAllStringSubmatch` with limit −1). -/
def findKVs (cs : List Char) : List (String × String) :=
  findKVsAux cs.length cs

/-- `registry.authChallenge`: the transient parsed challenge. -/
structure AuthChallenge where
  realm : String
  service : String
  scope : String
deriving DecidableEq

/-- One iteration of the Go `for _, match := range matches` loop body:
assign the value to the field named by the key, ignore other keys. -/
def applyKV (c : AuthChallenge) (kv : String × String) : AuthChallenge :=
  if kv.1 = "realm" then { c with realm := kv.2 }
  else if kv.1 = "service" then { c with service := kv.2 }
  else if kv.1 = "scope" then { c with scope := kv.2 }
  else c

/-- The challenge collected from a header's attribute matches. -/
def collectChallenge (header : String) : AuthChallenge :=
  (findKVs header.data).foldl applyKV ⟨"", "", ""⟩

/-- `Client.parseAuthChallenge`: reject a header not starting with
`"Bearer "`, collect `realm`/`service`/`scope` attributes, reject a
missing realm. -/
def parseAuthChallenge (header : String) : Except String AuthChallenge :=
  if ¬ goHasPre header "Bearer " then
    Except.error ("unsupported auth type: " ++ header)
  else
    let challenge := collectChallenge header
    if challenge.realm = "" then
      Except.error "missing realm in auth challenge"
    else
      Except.ok challenge

/-! ## Reconciliation controller (`internal/controller/controller.go`)

The controller's external collaborators are modelled as a `World` of
response functions: `getDigest` is `registryClient.GetImageDigest`,
`getCurrentImageDigest` and `rolloutRestart` are the Kubernetes
client's verbs, keyed by `(namespace, name, container)` and
`(namespace, name)`.  The digest tracker (`c.imageDigests`) is an
association list threaded through the functions; log statements are
reflected as the returned action and error traces. -/

/-- The external world one check cycle runs against. -/
structure World where
  getDigest : Image → Registry → Except String String
  getCurrentImageDigest : String → String → String → Except String String
  rolloutRestart : String → String → Except String Unit

/-- What `syncDeployments` did for one matching deployment: each
constructor corresponds to one of the source's log branches. -/
inductive SyncAction
  | skippedNoPod (nspace name : String)
  | restarted (nspace name : String)
  | restartFailed (nspace name : String)
  | inSync (nspace name : String)
deriving DecidableEq

/-- The action restarted the deployment (or attempted to): the source's
`RolloutRestart` call was made. -/
def SyncAction.triggersRestart : SyncAction → Bool
  | .restarted _ _ => true
  | .restartFailed _ _ => true
  | _ => false

/-- The body of the `for _, deployment := range c.config.Deployments`
loop in `Controller.syncDeployments`: skip a deployment whose `image`
does not start with the image prefix; skip (with a warning) when no
ready pod is available; restart when the running image identifier does
not end with the registry digest; otherwise leave it alone. -/
def syncDeploymentStep (w : World) (imagePre registryDigest : String)
    (deployment : Deployment) : Option SyncAction :=
  if ¬ goHasPre deployment.image imagePre then none
  else
    match w.getCurrentImageDigest deployment.nspace deployment.name deployment.container with
    | Except.error _ => some (SyncAction.skippedNoPod deployment.nspace deployment.name)
    | Except.ok currentImageID =>
        if ¬ goHasSuffix currentImageID registryDigest then
          match w.rolloutRestart deployment.nspace deployment.name with
          | Except.error _ => some (SyncAction.restartFailed deployment.nspace deployment.name)
          | Except.ok _ => some (SyncAction.restarted deployment.nspace deployment.name)
        else
          some (SyncAction.inSync deployment.nspace deployment.name)

/-- `Controller.syncDeployments`: run the step over every configured
deployment, with the prefix computed once by `buildImagePrefix`. -/
def syncDeployments (w : World) (cfg : Config) (img : Image) (reg : Registry)
    (registryDigest : String) : List SyncAction :=
  cfg.deployments.filterMap (syncDeploymentStep w (buildImagePre img reg) registryDigest)

/-- The controller's typed per-image check failures:
`RegistryNotFoundError` and the wrapped digest-resolution error
(`fmt.Errorf("failed to get digest for %s: %w", …)`). -/
inductive CheckError
  | registryNotFound (image registry : String)
  | digestFailed (imageKey msg : String)
deriving DecidableEq

/-- `Controller.checkImage`: resolve the registry configuration (fail
with a typed error when absent), resolve the digest (fail on error),
then in each of the three tracker branches (first observation, changed
digest, unchanged digest) record the digest and run the sync pass.
Returns the tracker after the call and the sync actions taken. -/
def checkImage (w : World) (cfg : Config) (tracker : List (String × String))
    (img : Image) : Except CheckError (List (String × String) × List SyncAction) :=
  match registryMapOf cfg img.registry with
  | none => Except.error (CheckError.registryNotFound img.name img.registry)
  | some reg =>
      let imageKey := img.key
      match w.getDigest img reg with
      | Except.error msg => Except.error (CheckError.digestFailed imageKey msg)
      | Except.ok newDigest =>
          match lookupA tracker imageKey with
          | none =>
              let tracker := insertA tracker imageKey newDigest
              Except.ok (tracker, syncDeployments w cfg img reg newDigest)
          | some oldDigest =>
              if oldDigest ≠ newDigest then
                let tracker := insertA tracker imageKey newDigest
                Except.ok (tracker, syncDeployments w cfg img reg newDigest)
              else
                Except.ok (tracker, syncDeployments w cfg img reg newDigest)

/-- The `for _, img := range c.config.Images` loop of
`Controller.checkAndUpdate`: images are checked one after another; an
erroring image is logged (its error joins the error trace) and skipped
with `continue`, leaving the tracker untouched; a successful check
threads its updated tracker into the remaining images' checks. -/
def checkImagesLoop (w : World) (cfg : Config) :
    List Image → List (String × String) →
    List (String × String) × List SyncAction × List CheckError
  | [], tracker => (tracker, [], [])
  | img :: rest, tracker =>
      match checkImage w cfg tracker img with
      | Except.error e =>
          let r := checkImagesLoop w cfg rest tracker
          (r.1, r.2.1, e :: r.2.2)
      | Except.ok (tracker', acts) =>
          let r := checkImagesLoop w cfg rest tracker'
          (r.1, acts ++ r.2.1, r.2.2)

/-- `Controller.checkAndUpdate`: one check cycle over all configured
images, starting from the given tracker state. -/
def checkAndUpdate (w : World) (cfg : Config) (tracker : List (String × String)) :
    List (String × String) × List SyncAction × List CheckError :=
  checkImagesLoop w cfg cfg.images tracker

/-! ## Kubernetes client (`internal/k8s/client.go`)

`RolloutRestart` fetches the deployment, stamps the
`kubectl.kubernetes.io/restartedAt` annotation on its pod template and
writes the object back.  The embedding returns the object handed to the
`Update` call; `getDeployment` models `Client.GetDeployment` (the read
from the cluster), and `now` is the formatted `time.Now()` value. -/

/-- A container of a pod template's spec: only the fields the program
touches or must not touch (the image field). -/
structure K8sContainer where
  name : String
  image : String
deriving DecidableEq

/-- `deployment.Spec.Template`: pod-template annotations and spec. -/
structure PodTemplate where
  annotations : List (String × String)
  containers : List K8sContainer
deriving DecidableEq

/-- `deployment.Spec`: the parts of the deployment spec the program
reads or writes, plus the frame fields it must leave alone. -/
structure K8sDeploymentSpec where
  selector : String
  replicas : Nat
  template : PodTemplate
deriving DecidableEq

/-- A deployment object as fetched from the cluster. -/
structure K8sDeployment where
  name : String
  nspace : String
  spec : K8sDeploymentSpec
deriving DecidableEq

/-- The annotation key stamped by `RolloutRestart`. -/
def restartedAtKey : String := "kubectl.kubernetes.io/restartedAt"

/-- `Client.RolloutRestart`: get the deployment (propagating a read
failure), ensure the template's annotation map exists (`nil` and empty
coincide in the association-list model), assign the restart timestamp,
and write the deployment back.  The `ok` value is the object written. -/
def RolloutRestart (getDeployment : String → String → Except String K8sDeployment)
    (nspace name now : String) : Except String K8sDeployment :=
  match getDeployment nspace name with
  | Except.error e => Except.error e
  | Except.ok deployment =>
      Except.ok
        { deployment with
          spec :=
            { deployment.spec with
              template :=
                { deployment.spec.template with
                  annotations :=
                    insertA deployment.spec.template.annotations restartedAtKey now } } }

/-! ## Controller loop and process exit (`Controller.Start`, `main`)

`Start` runs one immediate check cycle, then a `select` loop over the
ticker and the context's done channel; the loop is embedded over the
sequence of events it observes, and the pair returned counts the check
cycles run and gives `Start`'s result (`none` while no cancel event has
been observed: the loop is still blocked).  On cancellation `Start`
returns `ctx.Err()`, the context's own error value.  `mainExit` is the
exit-status decision of `main` (`main.go` of the standalone wiring):
failures of configuration loading or Kubernetes client construction
exit 1; a `Start` result that is not `context.Canceled` exits 1; the
cancellation result falls through to the graceful-shutdown log and the
process exits 0. -/

/-- A Go error value as `main` discriminates them:
`errors.Is(err, context.Canceled)` or not. -/
inductive GoError
  | contextCanceled
  | other (msg : String)
deriving DecidableEq

/-- One observable event of the `select` loop. -/
inductive LoopEvent
  | tick
  | cancel
deriving DecidableEq

/-- The `for { select … } }` loop of `Start`: a tick runs a check
cycle, the done channel returns `ctx.Err()`. -/
def startLoopRun (ctxErr : GoError) : List LoopEvent → Nat × Option GoError
  | [] => (0, none)
  | LoopEvent.cancel :: _ => (0, some ctxErr)
  | LoopEvent.tick :: rest =>
      let r := startLoopRun ctxErr rest
      (r.1 + 1, r.2)

/-- `Controller.Start`: the initial `checkAndUpdate` plus the loop. -/
def Start (ctxErr : GoError) (events : List LoopEvent) : Nat × Option GoError :=
  let r := startLoopRun ctxErr events
  (1 + r.1, r.2)

/-- The exit status `main` produces from its three failure gates
(configuration load, Kubernetes client construction, and
`ctrl.Start`'s result). -/
def mainExit (cfgLoad : Except String Unit) (k8sNew : Except String Unit)
    (startErr : Option GoError) : Nat :=
  match cfgLoad with
  | Except.error _ => 1
  | Except.ok _ =>
      match k8sNew with
      | Except.error _ => 1
      | Except.ok _ =>
          match startErr with
          | some e => if e ≠ GoError.contextCanceled then 1 else 0
          | none => 0

/-! ## The spec's view of the deployment-matching prefix

For the refinement claim about `buildImagePrefix`, this definition
follows the specification's words: the bare image name for the default
public hub, otherwise `host + "/" + name` with any leading scheme
stripped from the host. -/

/-- The deployment-matching prefix as the specification states it. -/
def matchPreFromSpec (img : Image) (reg : Registry) : String :=
  if reg.name = "" ∨ reg.name = "https://registry-1.docker.io" then
    img.name
  else
    let host := trimPre (trimPre reg.name "https://") "http://"
    host ++ "/" ++ img.name

/-- The value of the last `key="value"` attribute with the given key,
or the default when the key never occurs: what a fold of assignments
leaves in a field. -/
def lastAttr (kvs : List (String × String)) (key dflt : String) : String :=
  kvs.foldl (fun acc kv => if kv.1 = key then kv.2 else acc) dflt

/-! ## Concrete scenario data used by the witnesses -/

/-- A configured private registry without credentials. -/
def sampleReg : Registry := ⟨"https://registry.example.com", none⟩

/-- The image `registry.example.com/app:latest` under watch. -/
def sampleImg : Image := ⟨"app", "https://registry.example.com", "latest"⟩

/-- An image referencing a registry name that is not configured. -/
def ghostImg : Image := ⟨"ghost", "unknown-registry", "latest"⟩

/-- An image whose digest resolution fails in `sampleWorld`. -/
def otherImg : Image := ⟨"other", "https://registry.example.com", "latest"⟩

/-- A small deterministic world: the registry serves `sha256:aaa` for
`app` and fails for everything else; deployment `dep-drift` runs
`sha256:bbb`, deployment `dep-ok` runs `sha256:aaa`; restarts succeed. -/
def sampleWorld : World where
  getDigest := fun img _ =>
    if img.name = "app" then Except.ok "sha256:aaa"
    else Except.error "registry unreachable"
  getCurrentImageDigest := fun _ name _ =>
    if name = "dep-drift" then Except.ok "registry.example.com/app@sha256:bbb"
    else if name = "dep-ok" then Except.ok "registry.example.com/app@sha256:aaa"
    else Except.error "no ready pods"
  rolloutRestart := fun _ _ => Except.ok ()

/-- Configuration with one registry, one image and two deployments. -/
def sampleCfg : Config where
  checkInterval := 30
  registries := [sampleReg]
  images := [sampleImg]
  deployments :=
    [⟨"dep-drift", "default", "app", "registry.example.com/app:latest"⟩,
     ⟨"dep-ok", "default", "app", "registry.example.com/app:latest"⟩]

/-- A one-entry tracker already holding the resolved digest. -/
def sampleTracker : List (String × String) :=
  [(sampleImg.key, "sha256:aaa")]

/-- A cluster with a single deployment for the rollout-restart frame
scenario. -/
def sampleK8sGet : String → String → Except String K8sDeployment :=
  fun nspace name =>
    if nspace = "default" ∧ name = "dep-drift" then
      Except.ok
        ⟨"dep-drift", "default",
         ⟨"app=dep-drift", 2,
          ⟨[("team", "platform")], [⟨"app", "registry.example.com/app:latest"⟩]⟩⟩⟩
    else
      Except.error "deployment not found"

/-- The object `RolloutRestart` writes back in the scenario above. -/
def sampleRestarted : K8sDeployment :=
  ⟨"dep-drift", "default",
   ⟨"app=dep-drift", 2,
    ⟨[("team", "platform"), (restartedAtKey, "2026-10-11T00:00:00Z")],
     [⟨"app", "registry.example.com/app:latest"⟩]⟩⟩⟩

/-! ## C5 scenario: credential expansion and the stored configuration

`GetImageDigest` does expand environment placeholders at each call (at
use time), but it writes the expanded values back through the shared
pointer into the stored registry configuration (`reg.Auth.Username =
os.ExpandEnv(reg.Auth.Username)`), so the first call replaces the
placeholder with its then-current value and a later rotation of the
environment variable never reaches a subsequent call.  The concrete
scenario below exhibits this: before rotation `$SECRET` expands to
`oldsecret`, after rotation it would expand to `newsecret`, and the
fetch oracle echoes the password it was handed. -/

/-- `os.ExpandEnv` before the rotation: `$SECRET` is `oldsecret`;
a string without placeholders expands to itself. -/
def envBeforeRotation : String → String :=
  fun s => if s = "$SECRET" then "oldsecret" else s

/-- `os.ExpandEnv` after the rotation: `$SECRET` is now `newsecret`. -/
def envAfterRotation : String → String :=
  fun s => if s = "$SECRET" then "newsecret" else s

/-- A fetch oracle that answers with the password it was called with,
making the credentials actually used observable in the result. -/
def echoPasswordFetch : String → String → Option RegistryAuth → Except String String :=
  fun _ _ auth =>
    match auth with
    | some a => Except.ok a.password
    | none => Except.error "no credentials"

/-- The registry as configured: the password is the `$SECRET`
placeholder. -/
def placeholderReg : Registry :=
  ⟨"https://registry.example.com", some ⟨"user", "$SECRET"⟩⟩

/-- The image used in the C5 scenario. -/
def c5Image : Image := ⟨"app", "https://registry.example.com", "latest"⟩

/-! ## Helper lemmas -/

theorem lookupA_insertA_self {α : Type} (m : List (String × α)) (k : String) (v : α) :
    lookupA (insertA m k v) k = some v := by
  induction m with
  | nil => simp [insertA, lookupA]
  | cons hd tl ih =>
      obtain ⟨k', v'⟩ := hd
      by_cases h : k' = k
      · simp [insertA, lookupA, h]
      · simp [insertA, lookupA, h, ih]

theorem lookupA_insertA_other {α : Type} (m : List (String × α)) (k k' : String) (v : α)
    (h : k' ≠ k) : lookupA (insertA m k v) k' = lookupA m k' := by
  have h' : ¬ k = k' := fun hh => h hh.symm
  induction m with
  | nil => simp [insertA, lookupA, h']
  | cons hd tl ih =>
      obtain ⟨k₀, v₀⟩ := hd
      by_cases h₀ : k₀ = k
      · subst h₀
        simp [insertA, lookupA, h']
      · by_cases h₁ : k₀ = k'
        · simp [insertA, lookupA, h₀, h₁, h]
        · simp [insertA, lookupA, h₀, h₁, ih]

theorem length_dropWhileLe (p : Char → Bool) (l : List Char) :
    (l.dropWhile p).length ≤ l.length := by
  induction l with
  | nil => simp
  | cons c tl ih =>
      by_cases hp : p c <;> simp [List.dropWhile_cons, hp] <;> omega

theorem tryMatchKV_length {cs : List Char} {k v : String} {rest : List Char}
    (h : tryMatchKV cs = some (k, v, rest)) : rest.length < cs.length := by
  simp only [tryMatchKV] at h
  split at h
  · exact absurd h (by simp)
  · split at h
    case h_2 => exact absurd h (by simp)
    case h_1 afterQuote heq =>
      split at h
      · exact absurd h (by simp)
      · split at h
        case h_2 => exact absurd h (by simp)
        case h_1 tl heq' =>
          have hrest : rest.length = tl.length := by
            injection h with h'
            have h'' := congrArg (fun p => p.2.2) h'
            simp only [] at h''
            rw [← h'']
          have h₁ : tl.length + 1 ≤ afterQuote.length := by
            have := length_dropWhileLe (fun c => c != '"') afterQuote
            rw [heq'] at this
            simpa using this
          have h₂ : afterQuote.length + 2 ≤ cs.length := by
            have := length_dropWhileLe isWordChar cs
            rw [heq] at this
            simpa using this
          omega

/-- Fuel irrelevance for the match scan: any fuel at least the input's
length computes the same list of matches, so `findKVs` (fuel = length)
is the scan's fixpoint. -/
theorem findKVsAux_fuel :
    ∀ (fuel : Nat) (cs : List Char), cs.length ≤ fuel →
      findKVsAux fuel cs = findKVs cs := by
  intro fuel
  induction fuel using Nat.strong_induction_on with
  | _ fuel ih =>
      intro cs hlen
      match fuel, cs with
      | 0, [] => rfl
      | 0, c :: rest => exact absurd hlen (by simp)
      | fuel' + 1, [] => rfl
      | fuel' + 1, c :: rest =>
          have hrest : rest.length ≤ fuel' := by
            simpa using hlen
          show findKVsAux (fuel' + 1) (c :: rest) = findKVsAux (rest.length + 1) (c :: rest)
          cases hm : tryMatchKV (c :: rest) with
          | some kvr =>
              obtain ⟨k, v, rem⟩ := kvr
              have hrem : rem.length ≤ rest.length := by
                have := tryMatchKV_length hm
                simpa [Nat.lt_succ_iff] using this
              have e₁ : findKVsAux fuel' rem = findKVs rem :=
                ih fuel' (Nat.lt_succ_self fuel') rem (le_trans hrem hrest)
              have e₂ : findKVsAux rest.length rem = findKVs rem :=
                ih rest.length (Nat.lt_succ_of_le hrest) rem hrem
              simp [findKVsAux, hm, e₁, e₂]
          | none =>
              have e₁ : findKVsAux fuel' rest = findKVs rest :=
                ih fuel' (Nat.lt_succ_self fuel') rest hrest
              have e₂ : findKVsAux rest.length rest = findKVs rest :=
                ih rest.length (Nat.lt_succ_of_le hrest) rest (le_refl _)
              simp [findKVsAux, hm, e₁, e₂]

theorem applyKV_fields (c : AuthChallenge) (kv : String × String) :
    (applyKV c kv).realm = (if kv.1 = "realm" then kv.2 else c.realm) ∧
    (applyKV c kv).service = (if kv.1 = "service" then kv.2 else c.service) ∧
    (applyKV c kv).scope = (if kv.1 = "scope" then kv.2 else c.scope) := by
  by_cases h₁ : kv.1 = "realm"
  · simp [applyKV, h₁]
  · by_cases h₂ : kv.1 = "service"
    · simp [applyKV, h₁, h₂]
    · by_cases h₃ : kv.1 = "scope" <;> simp [applyKV, h₁, h₂, h₃]

theorem foldl_applyKV (kvs : List (String × String)) (c : AuthChallenge) :
    kvs.foldl applyKV c =
      ⟨lastAttr kvs "realm" c.realm, lastAttr kvs "service" c.service,
       lastAttr kvs "scope" c.scope⟩ := by
  induction kvs generalizing c with
  | nil => simp [lastAttr]
  | cons kv tl ih =>
      obtain ⟨hr, hs, hc⟩ := applyKV_fields c kv
      simp only [List.foldl_cons, ih (applyKV c kv), lastAttr, hr, hs, hc]

/-! ## Claim theorems and witnesses -/

/-- C3: the deployment-matching prefix is the bare image name for the
default public hub and `host + "/" + name` (scheme stripped) otherwise,
and a deployment is selected by the sync pass exactly when its `image`
field starts with that prefix. -/
theorem buildImagePre_matches_spec :
    (∀ (img : Image) (reg : Registry), buildImagePre img reg = matchPreFromSpec img reg) ∧
    (∀ (w : World) (img : Image) (reg : Registry) (registryDigest : String)
       (deployment : Deployment),
       (syncDeploymentStep w (buildImagePre img reg) registryDigest deployment).isSome =
         goHasPre deployment.image (buildImagePre img reg)) := by
  constructor
  · intro img reg
    by_cases h₁ : reg.name = "" <;> by_cases h₂ : reg.name = "https://registry-1.docker.io" <;>
      simp [buildImagePre, matchPreFromSpec, h₁, h₂]
  · intro w img reg registryDigest deployment
    by_cases hp : goHasPre deployment.image (buildImagePre img reg)
    · simp only [syncDeploymentStep, hp, not_true_eq_false, if_false]
      cases w.getCurrentImageDigest deployment.nspace deployment.name deployment.container with
      | error e => simp
      | ok currentImageID =>
          by_cases hs : goHasSuffix currentImageID registryDigest
          · simp [hs]
          · simp only [hs]
            cases w.rolloutRestart deployment.nspace deployment.name with
            | error e => simp
            | ok u => simp
    · simp [syncDeploymentStep, hp]

/-- C2: an image with no prior tracker entry whose digest resolves
successfully records the digest and always runs the sync pass, whatever
digest value was resolved. -/
theorem checkImage_first_observation :
    ∀ (w : World) (cfg : Config) (tracker : List (String × String))
      (img : Image) (reg : Registry) (newDigest : String),
      registryMapOf cfg img.registry = some reg →
      w.getDigest img reg = Except.ok newDigest →
      lookupA tracker img.key = none →
      checkImage w cfg tracker img =
        Except.ok (insertA tracker img.key newDigest,
                   syncDeployments w cfg img reg newDigest) := by
  intro w cfg tracker img reg newDigest hreg hdig htr
  simp [checkImage, hreg, hdig, htr]

/-- C2 witness: the first observation of `sampleImg` from an empty
tracker records `sha256:aaa` and runs the sync pass. -/
theorem checkImage_first_observation_witness :
    checkImage sampleWorld sampleCfg [] sampleImg =
      Except.ok (insertA [] sampleImg.key "sha256:aaa",
                 syncDeployments sampleWorld sampleCfg sampleImg sampleReg "sha256:aaa") :=
  checkImage_first_observation sampleWorld sampleCfg [] sampleImg sampleReg "sha256:aaa"
    (by decide) rfl rfl

/-- C1: an image whose resolved digest equals the tracker's stored
digest still runs the sync pass over every deployment, and within that
pass a restart is triggered for a deployment exactly when it matches
the image prefix and its running pod's image identifier does not end
with the resolved digest. -/
theorem checkImage_unchanged_digest :
    ∀ (w : World) (cfg : Config) (tracker : List (String × String))
      (img : Image) (reg : Registry) (digest : String),
      registryMapOf cfg img.registry = some reg →
      w.getDigest img reg = Except.ok digest →
      lookupA tracker img.key = some digest →
      checkImage w cfg tracker img =
        Except.ok (tracker, syncDeployments w cfg img reg digest) ∧
      ∀ deployment : Deployment,
        (∃ a, syncDeploymentStep w (buildImagePre img reg) digest deployment = some a ∧
              a.triggersRestart = true) ↔
        (goHasPre deployment.image (buildImagePre img reg) = true ∧
         ∃ currentImageID,
           w.getCurrentImageDigest deployment.nspace deployment.name deployment.container =
             Except.ok currentImageID ∧
           goHasSuffix currentImageID digest = false) := by
  intro w cfg tracker img reg digest hreg hdig htr
  constructor
  · simp [checkImage, hreg, hdig, htr]
  · intro deployment
    by_cases hp : goHasPre deployment.image (buildImagePre img reg)
    · simp only [syncDeploymentStep, hp, not_true_eq_false, if_false]
      cases hc : w.getCurrentImageDigest deployment.nspace deployment.name
          deployment.container with
      | error e => simp [SyncAction.triggersRestart, hp]
      | ok currentImageID =>
          by_cases hs : goHasSuffix currentImageID digest
          · simp [hs, SyncAction.triggersRestart, hp]
          · simp only [hs, Bool.not_false, if_true]
            cases w.rolloutRestart deployment.nspace deployment.name with
            | error e => simp [SyncAction.triggersRestart, hp, hs]
            | ok u => simp [SyncAction.triggersRestart, hp, hs]
    · simp [syncDeploymentStep, hp]

/-- C1 witness: with the tracker already holding `sha256:aaa` the check
still returns the sync pass, and the restart-iff characterization holds
for every deployment of the scenario. -/
theorem checkImage_unchanged_digest_witness :
    (checkImage sampleWorld sampleCfg sampleTracker sampleImg =
      Except.ok (sampleTracker,
                 syncDeployments sampleWorld sampleCfg sampleImg sampleReg "sha256:aaa")) ∧
    (∀ deployment : Deployment,
      (∃ a, syncDeploymentStep sampleWorld (buildImagePre sampleImg sampleReg) "sha256:aaa"
              deployment = some a ∧ a.triggersRestart = true) ↔
      (goHasPre deployment.image (buildImagePre sampleImg sampleReg) = true ∧
       ∃ currentImageID,
         sampleWorld.getCurrentImageDigest deployment.nspace deployment.name
             deployment.container = Except.ok currentImageID ∧
         goHasSuffix currentImageID "sha256:aaa" = false)) :=
  checkImage_unchanged_digest sampleWorld sampleCfg sampleTracker sampleImg sampleReg
    "sha256:aaa" (by decide) rfl (by decide)

/-- C9: in every successful branch of the per-image check, the tracker
entry for the image's key holds the freshly resolved digest after the
call, and the sync pass that ran is the one computed from that same
digest. -/
theorem checkImage_tracker_invariant :
    ∀ (w : World) (cfg : Config) (tracker : List (String × String))
      (img : Image) (reg : Registry) (newDigest : String)
      (tracker' : List (String × String)) (acts : List SyncAction),
      registryMapOf cfg img.registry = some reg →
      w.getDigest img reg = Except.ok newDigest →
      checkImage w cfg tracker img = Except.ok (tracker', acts) →
      lookupA tracker' img.key = some newDigest ∧
      acts = syncDeployments w cfg img reg newDigest := by
  intro w cfg tracker img reg newDigest tracker' acts hreg hdig hok
  cases htr : lookupA tracker img.key with
  | none =>
      have hval : checkImage w cfg tracker img =
          Except.ok (insertA tracker img.key newDigest,
                     syncDeployments w cfg img reg newDigest) := by
        simp [checkImage, hreg, hdig, htr]
      rw [hval] at hok
      simp only [Except.ok.injEq, Prod.mk.injEq] at hok
      rw [← hok.1, ← hok.2]
      exact ⟨lookupA_insertA_self tracker img.key newDigest, rfl⟩
  | some oldDigest =>
      by_cases hne : oldDigest = newDigest
      · have hval : checkImage w cfg tracker img =
            Except.ok (tracker, syncDeployments w cfg img reg newDigest) := by
          simp [checkImage, hreg, hdig, htr, hne]
        rw [hval] at hok
        simp only [Except.ok.injEq, Prod.mk.injEq] at hok
        rw [← hok.1, ← hok.2]
        rw [hne] at htr
        exact ⟨htr, rfl⟩
      · have hval : checkImage w cfg tracker img =
            Except.ok (insertA tracker img.key newDigest,
                       syncDeployments w cfg img reg newDigest) := by
          simp [checkImage, hreg, hdig, htr, hne]
        rw [hval] at hok
        simp only [Except.ok.injEq, Prod.mk.injEq] at hok
        rw [← hok.1, ← hok.2]
        exact ⟨lookupA_insertA_self tracker img.key newDigest, rfl⟩

/-- C9 witness: after a first observation from the empty tracker the
entry holds `sha256:aaa` and the actions are the sync pass. -/
theorem checkImage_tracker_invariant_witness :
    lookupA (insertA [] sampleImg.key "sha256:aaa") sampleImg.key = some "sha256:aaa" ∧
    syncDeployments sampleWorld sampleCfg sampleImg sampleReg "sha256:aaa" =
      syncDeployments sampleWorld sampleCfg sampleImg sampleReg "sha256:aaa" :=
  checkImage_tracker_invariant sampleWorld sampleCfg [] sampleImg sampleReg "sha256:aaa"
    (insertA [] sampleImg.key "sha256:aaa")
    (syncDeployments sampleWorld sampleCfg sampleImg sampleReg "sha256:aaa")
    (by decide) rfl rfl

/-- C4: a failing per-image check — an unconfigured registry reference
(typed registry-not-found error) or a failed digest resolution — yields
a typed error value, leaves the tracker untouched, and the rest of the
cycle's images are still checked from that same tracker state. -/
theorem checkImage_failure_isolated :
    (∀ (w : World) (cfg : Config) (tracker : List (String × String)) (img : Image),
       registryMapOf cfg img.registry = none →
       checkImage w cfg tracker img =
         Except.error (CheckError.registryNotFound img.name img.registry)) ∧
    (∀ (w : World) (cfg : Config) (tracker : List (String × String))
       (img : Image) (reg : Registry) (msg : String),
       registryMapOf cfg img.registry = some reg →
       w.getDigest img reg = Except.error msg →
       checkImage w cfg tracker img =
         Except.error (CheckError.digestFailed img.key msg)) ∧
    (∀ (w : World) (cfg : Config) (tracker : List (String × String))
       (img : Image) (rest : List Image) (e : CheckError),
       checkImage w cfg tracker img = Except.error e →
       checkImagesLoop w cfg (img :: rest) tracker =
         ((checkImagesLoop w cfg rest tracker).1,
          (checkImagesLoop w cfg rest tracker).2.1,
          e :: (checkImagesLoop w cfg rest tracker).2.2)) := by
  refine ⟨?_, ?_, ?_⟩
  · intro w cfg tracker img hreg
    simp [checkImage, hreg]
  · intro w cfg tracker img reg msg hreg hdig
    simp [checkImage, hreg, hdig]
  · intro w cfg tracker img rest e herr
    simp [checkImagesLoop, herr]

/-- C4 witness: an unconfigured registry yields the typed error; a
failing resolution yields the wrapped error; a cycle starting with the
failing image records the error and checks the rest from the same
tracker. -/
theorem checkImage_failure_isolated_witness :
    (checkImage sampleWorld sampleCfg [] ghostImg =
      Except.error (CheckError.registryNotFound ghostImg.name ghostImg.registry)) ∧
    (checkImage sampleWorld sampleCfg [] otherImg =
      Except.error (CheckError.digestFailed otherImg.key "registry unreachable")) ∧
    (checkImagesLoop sampleWorld sampleCfg (ghostImg :: [sampleImg]) [] =
      ((checkImagesLoop sampleWorld sampleCfg [sampleImg] []).1,
       (checkImagesLoop sampleWorld sampleCfg [sampleImg] []).2.1,
       CheckError.registryNotFound ghostImg.name ghostImg.registry ::
         (checkImagesLoop sampleWorld sampleCfg [sampleImg] []).2.2)) :=
  ⟨checkImage_failure_isolated.1 sampleWorld sampleCfg [] ghostImg (by decide),
   checkImage_failure_isolated.2.1 sampleWorld sampleCfg [] otherImg sampleReg
     "registry unreachable" (by decide) rfl,
   checkImage_failure_isolated.2.2 sampleWorld sampleCfg [] ghostImg [sampleImg]
     (CheckError.registryNotFound ghostImg.name ghostImg.registry)
     (checkImage_failure_isolated.1 sampleWorld sampleCfg [] ghostImg (by decide))⟩

/-- C6: auth-challenge parsing errors on every header not carrying the
`Bearer` scheme, errors on a Bearer challenge from which no `realm`
attribute is extracted, and on success yields the realm, service and
scope read off the header's `key="value"` attributes (the last
occurrence of each key). -/
theorem parseAuthChallenge_policy :
    ∀ header : String,
      (goHasPre header "Bearer " = false →
        ∃ msg, parseAuthChallenge header = Except.error msg) ∧
      (goHasPre header "Bearer " = true →
        lastAttr (findKVs header.data) "realm" "" = "" →
        ∃ msg, parseAuthChallenge header = Except.error msg) ∧
      (∀ c, parseAuthChallenge header = Except.ok c →
        goHasPre header "Bearer " = true ∧
        c.realm = lastAttr (findKVs header.data) "realm" "" ∧
        c.service = lastAttr (findKVs header.data) "service" "" ∧
        c.scope = lastAttr (findKVs header.data) "scope" "" ∧
        c.realm ≠ "") := by
  intro header
  have hcollect : collectChallenge header =
      ⟨lastAttr (findKVs header.data) "realm" "",
       lastAttr (findKVs header.data) "service" "",
       lastAttr (findKVs header.data) "scope" ""⟩ :=
    foldl_applyKV (findKVs header.data) ⟨"", "", ""⟩
  refine ⟨?_, ?_, ?_⟩
  · intro hb
    refine ⟨"unsupported auth type: " ++ header, ?_⟩
    simp [parseAuthChallenge, hb]
  · intro hb hrealm
    refine ⟨"missing realm in auth challenge", ?_⟩
    simp only [parseAuthChallenge, hb, not_true_eq_false, if_false, hcollect]
    simp [hrealm]
  · intro c hok
    by_cases hb : goHasPre header "Bearer "
    · simp only [parseAuthChallenge, hb, not_true_eq_false, if_false, hcollect] at hok
      by_cases hrealm : lastAttr (findKVs header.data) "realm" "" = ""
      · simp [hrealm] at hok
      · simp only [hrealm, if_false] at hok
        have hc := hok
        simp only [Except.ok.injEq] at hc
        rw [← hc]
        exact ⟨hb, rfl, rfl, rfl, hrealm⟩
    · simp [parseAuthChallenge, hb] at hok

/-- C6 witness: a `Basic` challenge is rejected, a Bearer challenge
without a realm is rejected, and a well-formed Bearer challenge parses
into its attributes. -/
theorem parseAuthChallenge_policy_witness :
    (∃ msg, parseAuthChallenge "Basic realm=\"reg\"" = Except.error msg) ∧
    (∃ msg, parseAuthChallenge "Bearer error=\"denied\"" = Except.error msg) ∧
    (goHasPre "Bearer realm=\"https://auth.example.com/token\",service=\"reg\",scope=\"repository:app:pull\"" "Bearer " = true ∧
     (AuthChallenge.mk "https://auth.example.com/token" "reg" "repository:app:pull").realm =
       lastAttr (findKVs "Bearer realm=\"https://auth.example.com/token\",service=\"reg\",scope=\"repository:app:pull\"".data) "realm" "" ∧
     (AuthChallenge.mk "https://auth.example.com/token" "reg" "repository:app:pull").service =
       lastAttr (findKVs "Bearer realm=\"https://auth.example.com/token\",service=\"reg\",scope=\"repository:app:pull\"".data) "service" "" ∧
     (AuthChallenge.mk "https://auth.example.com/token" "reg" "repository:app:pull").scope =
       lastAttr (findKVs "Bearer realm=\"https://auth.example.com/token\",service=\"reg\",scope=\"repository:app:pull\"".data) "scope" "" ∧
     (AuthChallenge.mk "https://auth.example.com/token" "reg" "repository:app:pull").realm ≠ "") :=
  ⟨(parseAuthChallenge_policy "Basic realm=\"reg\"").1 (by decide),
   (parseAuthChallenge_policy "Bearer error=\"denied\"").2.1 (by decide) (by decide),
   (parseAuthChallenge_policy
     "Bearer realm=\"https://auth.example.com/token\",service=\"reg\",scope=\"repository:app:pull\"").2.2
     (AuthChallenge.mk "https://auth.example.com/token" "reg" "repository:app:pull") rfl⟩

/-- C7: a successful `RolloutRestart` writes back the fetched
deployment with only the pod-template annotations changed — the
restart-timestamp annotation is stamped, every other annotation key,
the container list (hence every container image field), and all other
spec fields are exactly those of the fetched object. -/
theorem rolloutRestart_frame :
    ∀ (getDeployment : String → String → Except String K8sDeployment)
      (nspace name now : String) (written : K8sDeployment),
      RolloutRestart getDeployment nspace name now = Except.ok written →
      ∃ fetched, getDeployment nspace name = Except.ok fetched ∧
        written.name = fetched.name ∧
        written.nspace = fetched.nspace ∧
        written.spec.selector = fetched.spec.selector ∧
        written.spec.replicas = fetched.spec.replicas ∧
        written.spec.template.containers = fetched.spec.template.containers ∧
        written.spec.template.annotations =
          insertA fetched.spec.template.annotations restartedAtKey now ∧
        lookupA written.spec.template.annotations restartedAtKey = some now ∧
        ∀ k, k ≠ restartedAtKey →
          lookupA written.spec.template.annotations k =
            lookupA fetched.spec.template.annotations k := by
  intro getDeployment nspace name now written hok
  cases hget : getDeployment nspace name with
  | error e =>
      rw [RolloutRestart, hget] at hok
      exact absurd hok (by simp)
  | ok fetched =>
      rw [RolloutRestart, hget] at hok
      simp only [Except.ok.injEq] at hok
      refine ⟨fetched, rfl, ?_⟩
      rw [← hok]
      refine ⟨rfl, rfl, rfl, rfl, rfl, rfl, ?_, ?_⟩
      · exact lookupA_insertA_self _ _ _
      · intro k hk
        exact lookupA_insertA_other _ _ _ _ hk

/-- C7 witness: restarting `default/dep-drift` stamps the restart
annotation and leaves the rest of the fetched object intact. -/
theorem rolloutRestart_frame_witness :
    ∃ fetched, sampleK8sGet "default" "dep-drift" = Except.ok fetched ∧
      sampleRestarted.name = fetched.name ∧
      sampleRestarted.nspace = fetched.nspace ∧
      sampleRestarted.spec.selector = fetched.spec.selector ∧
      sampleRestarted.spec.replicas = fetched.spec.replicas ∧
      sampleRestarted.spec.template.containers = fetched.spec.template.containers ∧
      sampleRestarted.spec.template.annotations =
        insertA fetched.spec.template.annotations restartedAtKey "2026-10-11T00:00:00Z" ∧
      lookupA sampleRestarted.spec.template.annotations restartedAtKey =
        some "2026-10-11T00:00:00Z" ∧
      ∀ k, k ≠ restartedAtKey →
        lookupA sampleRestarted.spec.template.annotations k =
          lookupA fetched.spec.template.annotations k :=
  rolloutRestart_frame sampleK8sGet "default" "dep-drift" "2026-10-11T00:00:00Z"
    sampleRestarted rfl

/-- C8: when the cancellation signal fires the loop returns the
context's cancellation error, which the caller maps to exit status 0,
while a non-cancellation controller error or a fatal startup failure
(configuration load or Kubernetes client construction) exits non-zero. -/
theorem start_cancel_clean_exit :
    (∀ events : List LoopEvent, LoopEvent.cancel ∈ events →
      (Start GoError.contextCanceled events).2 = some GoError.contextCanceled) ∧
    (mainExit (Except.ok ()) (Except.ok ()) (some GoError.contextCanceled) = 0) ∧
    (∀ msg, mainExit (Except.ok ()) (Except.ok ()) (some (GoError.other msg)) = 1) ∧
    (∀ msg k8sNew startErr, mainExit (Except.error msg) k8sNew startErr = 1) ∧
    (∀ msg startErr, mainExit (Except.ok ()) (Except.error msg) startErr = 1) := by
  refine ⟨?_, rfl, ?_, ?_, ?_⟩
  · intro events hmem
    have : ∀ evs : List LoopEvent, LoopEvent.cancel ∈ evs →
        (startLoopRun GoError.contextCanceled evs).2 = some GoError.contextCanceled := by
      intro evs hm
      induction evs with
      | nil => cases hm
      | cons ev rest ih =>
          cases ev with
          | cancel => simp [startLoopRun]
          | tick =>
              have hm' : LoopEvent.cancel ∈ rest := by
                cases hm with
                | tail _ h => exact h
              simp [startLoopRun, ih hm']
    simpa [Start] using this events hmem
  · intro msg
    simp [mainExit]
  · intro msg k8sNew startErr
    simp [mainExit]
  · intro msg startErr
    simp [mainExit]

/-- C8 witness: a loop observing a tick and then the cancellation
signal returns the cancellation error, which exits 0; the other failure
gates exit 1. -/
theorem start_cancel_clean_exit_witness :
    ((Start GoError.contextCanceled [LoopEvent.tick, LoopEvent.cancel]).2 =
      some GoError.contextCanceled) ∧
    (mainExit (Except.ok ()) (Except.ok ()) (some GoError.contextCanceled) = 0) ∧
    (mainExit (Except.ok ()) (Except.ok ()) (some (GoError.other "watch error")) = 1) ∧
    (mainExit (Except.error "bad config") (Except.ok ()) none = 1) ∧
    (mainExit (Except.ok ()) (Except.error "bad kubeconfig") none = 1) :=
  ⟨start_cancel_clean_exit.1 [LoopEvent.tick, LoopEvent.cancel] (by decide),
   start_cancel_clean_exit.2.1,
   start_cancel_clean_exit.2.2.1 "watch error",
   start_cancel_clean_exit.2.2.2.1 "bad config" (Except.ok ()) none,
   start_cancel_clean_exit.2.2.2.2 "bad kubeconfig" none⟩

/-- C5 counterexample: after the first resolution the stored registry
configuration has changed (the placeholder was overwritten with
`oldsecret`), and the second resolution — run after the environment
was rotated to `newsecret` — still uses `oldsecret`: the rotated
secret does not take effect on the second call. -/
theorem getImageDigest_mutation_counterexample :
    (GetImageDigest envBeforeRotation echoPasswordFetch c5Image placeholderReg).2 ≠
      placeholderReg ∧
    (GetImageDigest envAfterRotation echoPasswordFetch c5Image
        (GetImageDigest envBeforeRotation echoPasswordFetch c5Image placeholderReg).2).1 =
      Except.ok "oldsecret" ∧
    ("oldsecret" : String) ≠ "newsecret" := by
  exact ⟨by decide, by rfl, by decide⟩

/-- C5 as the code actually behaves: placeholders are expanded at each
call, at use time, with the environment of that call — never at load
time — but the expansion is written back into the stored registry
configuration, so a second call expands the first call's output rather
than the original placeholder. -/
theorem getImageDigest_expands_and_mutates :
    ∀ (env₁ env₂ : String → String)
      (fetch₁ fetch₂ : String → String → Option RegistryAuth → Except String String)
      (img₁ img₂ : Image) (reg : Registry) (auth : RegistryAuth),
      reg.auth = some auth →
      (GetImageDigest env₁ fetch₁ img₁ reg).2.auth =
        some ⟨env₁ auth.username, env₁ auth.password⟩ ∧
      ((GetImageDigest env₂ fetch₂ img₂ (GetImageDigest env₁ fetch₁ img₁ reg).2).2).auth =
        some ⟨env₂ (env₁ auth.username), env₂ (env₁ auth.password)⟩ := by
  intro env₁ env₂ fetch₁ fetch₂ img₁ img₂ reg auth hauth
  have h₁ : (GetImageDigest env₁ fetch₁ img₁ reg).2.auth =
      some ⟨env₁ auth.username, env₁ auth.password⟩ := by
    simp only [GetImageDigest, hauth]
    cases fetch₁ (normalizeRegistry reg.name ++ "/v2/" ++
        normalizeImagePath (normalizeRegistry reg.name) img₁.name ++ "/manifests/" ++
        img₁.tag) (normalizeImagePath (normalizeRegistry reg.name) img₁.name)
        (some ⟨env₁ auth.username, env₁ auth.password⟩) with
    | error e => rfl
    | ok d => rfl
  refine ⟨h₁, ?_⟩
  set reg₁ := (GetImageDigest env₁ fetch₁ img₁ reg).2 with hreg₁
  simp only [GetImageDigest, h₁]
  cases fetch₂ (normalizeRegistry reg₁.name ++ "/v2/" ++
      normalizeImagePath (normalizeRegistry reg₁.name) img₂.name ++ "/manifests/" ++
      img₂.tag) (normalizeImagePath (normalizeRegistry reg₁.name) img₂.name)
      (some ⟨env₂ (env₁ auth.username), env₂ (env₁ auth.password)⟩) with
  | error e => rfl
  | ok d => rfl

/-- C5 amended-claim witness: in the rotation scenario the first call
stores the old secret and the second call re-expands that stored
value. -/
theorem getImageDigest_expands_and_mutates_witness :
    (GetImageDigest envBeforeRotation echoPasswordFetch c5Image placeholderReg).2.auth =
      some ⟨envBeforeRotation "user", envBeforeRotation "$SECRET"⟩ ∧
    ((GetImageDigest envAfterRotation echoPasswordFetch c5Image
        (GetImageDigest envBeforeRotation echoPasswordFetch c5Image placeholderReg).2).2).auth =
      some ⟨envAfterRotation (envBeforeRotation "user"),
            envAfterRotation (envBeforeRotation "$SECRET")⟩ :=
  getImageDigest_expands_and_mutates envBeforeRotation envAfterRotation
    echoPasswordFetch echoPasswordFetch c5Image c5Image placeholderReg
    ⟨"user", "$SECRET"⟩ rfl

end Deities
